import Mathlib

/-!
Shallow embedding of the midi-logger formatters (src/formatters.ts) and
proofs of the specification's claims about them.

The source file defines three formatters sharing an IFormatter interface:
`rawFormatter`, `scientificFormatter`, and `ABCFormatter` (the key-aware
pitch speller).  JavaScript integer arithmetic is modelled on `Int`:
JS `%` is truncated remainder (`Int.tmod`), and `Math.floor(n / 12)` on an
integer `n` is flooring division (`Int.fdiv`).
-/

namespace MidiLogger

/-- The seven note letters (type `Letter` in ABCFormatter.format). -/
inductive Letter
  | A | B | C | D | E | F | G
deriving DecidableEq, Repr, Fintype

/-- Accidentals (type `Acc` in ABCFormatter.format). -/
inductive Acc
  | natural | sharp | flat
deriving DecidableEq, Repr

/-- A spelling: a letter together with an accidental (type `Spelling`). -/
structure Spelling where
  letter : Letter
  acc : Acc
deriving DecidableEq, Repr

/-- Upper-case rendering of a letter, as the TS template string produces. -/
def Letter.upper : Letter → String
  | .A => "A" | .B => "B" | .C => "C" | .D => "D"
  | .E => "E" | .F => "F" | .G => "G"

/-- Lower-case rendering of a letter (`letter.toLowerCase()`). -/
def Letter.lower : Letter → String
  | .A => "a" | .B => "b" | .C => "c" | .D => "d"
  | .E => "e" | .F => "f" | .G => "g"

/-- JS truncated remainder, the semantics of `%` on integers. -/
def jsMod (a b : Int) : Int := Int.tmod a b

/-- `Math.floor(a / b)` for integers `a` and positive `b`: flooring division. -/
def jsFloorDiv (a b : Int) : Int := Int.fdiv a b

/-- Pitch class as computed at line 28: `((MIDInote % 12) + 12) % 12`. -/
def pitchClassOf (n : Int) : Int := jsMod (jsMod n 12 + 12) 12

/-- Octave as computed at line 29: `Math.floor(MIDInote / 12) - 1`. -/
def octaveOf (n : Int) : Int := jsFloorDiv n 12 - 1

/-- The Pitch Decomposer of the spec: the pair computed at lines 28-29. -/
def decompose (n : Int) : Int × Int := (pitchClassOf n, octaveOf n)

/-- The candidate table `candMap` (lines 32-45), with the `?? [C natural]`
fallback of line 51 as the default branch. -/
def candMap (pc : Int) : List Spelling :=
  if pc = 0 then [⟨.C, .natural⟩]
  else if pc = 1 then [⟨.C, .sharp⟩, ⟨.D, .flat⟩]
  else if pc = 2 then [⟨.D, .natural⟩]
  else if pc = 3 then [⟨.D, .sharp⟩, ⟨.E, .flat⟩]
  else if pc = 4 then [⟨.E, .natural⟩]
  else if pc = 5 then [⟨.F, .natural⟩]
  else if pc = 6 then [⟨.F, .sharp⟩, ⟨.G, .flat⟩]
  else if pc = 7 then [⟨.G, .natural⟩]
  else if pc = 8 then [⟨.G, .sharp⟩, ⟨.A, .flat⟩]
  else if pc = 9 then [⟨.A, .natural⟩]
  else if pc = 10 then [⟨.A, .sharp⟩, ⟨.B, .flat⟩]
  else if pc = 11 then [⟨.B, .natural⟩]
  else [⟨.C, .natural⟩]

/-- JS `String.prototype.trim`: drop whitespace characters from both ends
of the string.  Modelled directly on the character list so that it
evaluates by kernel reduction. -/
def jsTrim (s : String) : String :=
  String.mk
    (((s.data.dropWhile Char.isWhitespace).reverse.dropWhile
        Char.isWhitespace).reverse)

/-- `normalizeKey` (lines 86-88): trim surrounding whitespace. -/
def normalizeKey (x : String) : String := jsTrim x

/-- `preferFlatsInTie` (lines 90-95). -/
def preferFlatsInTie (x : String) : Bool :=
  if x = "C" then true
  else (["F", "Bb", "Eb", "Ab", "Db", "Gb", "Cb"] : List String).contains x

/-- The sharp application order `sharpsOrder` (line 102). -/
def sharpsOrder : List Letter := [.F, .C, .G, .D, .A, .E, .B]

/-- The flat application order `flatsOrder` (line 103). -/
def flatsOrder : List Letter := [.B, .E, .A, .D, .G, .C, .F]

/-- `keyToSharpsCount` (lines 105-107) as an if-chain; `none` models a key
absent from the record. -/
def keyToSharpsCount (x : String) : Option Nat :=
  if x = "C" then some 0
  else if x = "G" then some 1
  else if x = "D" then some 2
  else if x = "A" then some 3
  else if x = "E" then some 4
  else if x = "B" then some 5
  else if x = "F#" then some 6
  else if x = "C#" then some 7
  else none

/-- `keyToFlatsCount` (lines 108-110). -/
def keyToFlatsCount (x : String) : Option Nat :=
  if x = "C" then some 0
  else if x = "F" then some 1
  else if x = "Bb" then some 2
  else if x = "Eb" then some 3
  else if x = "Ab" then some 4
  else if x = "Db" then some 5
  else if x = "Gb" then some 6
  else if x = "Cb" then some 7
  else none

/-- `keySignatureDefaults` (lines 97-121): all letters default to natural;
a sharp key of count `n` marks the first `n` letters of `sharpsOrder` sharp,
a flat key of count `n` marks the first `n` letters of `flatsOrder` flat.
The source loop `for (let i = 0; i < n; i++) defaults[order[i]] = acc`
assigns exactly the letters in `order.take n` (the orders are duplicate-free),
which is the membership test used here. -/
def keySignatureDefaults (x : String) : Letter → Acc :=
  match keyToSharpsCount x with
  | some n => fun l => if l ∈ sharpsOrder.take n then .sharp else .natural
  | none =>
    match keyToFlatsCount x with
    | some n => fun l => if l ∈ flatsOrder.take n then .flat else .natural
    | none => fun _ => .natural

/-- One iteration of the selection loop (lines 58-77): given the best
spelling so far and its cost, consider the next candidate. -/
def selectStep (keyDefaults : Letter → Acc) (preferFlats : Bool)
    (state : Spelling × Nat) (cand : Spelling) : Spelling × Nat :=
  let best := state.1
  let bestCost := state.2
  let d := keyDefaults cand.letter
  let cost : Nat := if cand.acc ≠ d then 1 else 0
  if cost < bestCost then (cand, cost)
  else if cost = bestCost then
    if preferFlats then
      if cand.acc = .flat ∧ best.acc ≠ .flat then (cand, bestCost)
      else (best, bestCost)
    else
      if cand.acc = .sharp ∧ best.acc ≠ .sharp then (cand, bestCost)
      else (best, bestCost)
  else (best, bestCost)

/-- The Spelling Selector (lines 55-77): fold the loop body over the
candidate list, starting from `best = candidates[0]`, `bestCost = 999`. -/
def selectSpelling (candidates : List Spelling) (keyDefaults : Letter → Acc)
    (preferFlats : Bool) : Spelling :=
  (candidates.foldl (selectStep keyDefaults preferFlats)
    (candidates.headD ⟨.C, .natural⟩, 999)).1

/-- `accidentalPrefix` (lines 123-129). -/
def accidentalPrefix (acc : Acc) (defaultAcc : Acc) : String :=
  if acc = defaultAcc then ""
  else if acc = .sharp then "^"
  else if acc = .flat then "_"
  else "="

/-- The apostrophe character used as the ABC octave-up mark. -/
def apostrophe : Char := Char.ofNat 39

/-- `applyAbcOctave` (lines 131-142): octave at most 4 renders the letter
upper-case followed by `4 - oct` commas; octave above 4 renders it
lower-case followed by `oct - 5` apostrophes. -/
def applyAbcOctave (letter : Letter) (oct : Int) : String :=
  if oct ≤ 4 then
    letter.upper ++ String.mk (List.replicate (4 - oct).toNat ',')
  else
    letter.lower ++ String.mk (List.replicate (oct - 5).toNat apostrophe)

/-- `ABCFormatter.format` (lines 22-144).  The separator parameter is
declared but unused in the source (`_separator`). -/
def abcFormat (MIDInote : Int) (_separator : String) (key : String) : String :=
  let pc := pitchClassOf MIDInote
  let octave := octaveOf MIDInote
  let k := normalizeKey key
  let keyDefaults := keySignatureDefaults k
  let preferFlats := preferFlatsInTie k
  let candidates := candMap pc
  let best := selectSpelling candidates keyDefaults preferFlats
  accidentalPrefix best.acc (keyDefaults best.letter) ++
    applyAbcOctave best.letter octave

/-- The spec's entry point `formatKeyAwarePitch(pitchNumber, keyName)`:
the key-aware formatter (the separator is ignored by it). -/
def formatKeyAwarePitch (n : Int) (key : String) : String :=
  abcFormat n "" key

/-- `rawFormatter.format` (lines 6-10): `"{MIDInote}{separator}"`. -/
def rawFormat (MIDInote : Int) (separator : String) : String :=
  toString MIDInote ++ separator

/-- The fixed sharp-biased note-name table (line 14). -/
def noteNames : List String :=
  ["C", "C#", "D", "D#", "E", "F"] ++ ["F#", "G", "G#", "A", "A#", "B"]

/-- `scientificFormatter.format` (lines 12-20):
`noteNames[MIDInote % 12]` then `Math.floor(MIDInote / 12) - 1` then the
separator.  An out-of-range index would be `undefined` in JS; it is modelled
by the `getD` default, which is unreachable for non-negative input. -/
def scientificFormat (MIDInote : Int) (separator : String) : String :=
  let idx := jsMod MIDInote 12
  let noteName :=
    if 0 ≤ idx then noteNames.getD idx.toNat "undefined" else "undefined"
  let octave := jsFloorDiv MIDInote 12 - 1
  noteName ++ toString octave ++ separator

/-- The 15 supported key names, as listed in the key-selection modal
(src/main.ts line 243); this is also exactly the union of the domains of
`keyToSharpsCount` and `keyToFlatsCount`. -/
def supportedKeys : List String :=
  ["C", "G", "D", "A", "E", "B", "F#", "C#",
   "F", "Bb", "Eb", "Ab", "Db", "Gb", "Cb"]

/-- The output the ABC formatter actually produces for an unrecognized or
empty key name: key C's all-natural signature defaults combined with the
sharp-leaning tie-break (`preferFlatsInTie` is false off its explicit list). -/
def unrecognizedKeyFormat (n : Int) : String :=
  let defaults : Letter → Acc := fun _ => Acc.natural
  let best := selectSpelling (candMap (pitchClassOf n)) defaults false
  accidentalPrefix best.acc (defaults best.letter) ++
    applyAbcOctave best.letter (octaveOf n)

/-- The eight key names for which the tie-break prefers flats, per the
spec's Key Model section: C itself plus the seven flat-family keys. -/
def flatPreferringKeys : List String :=
  ["C", "F", "Bb", "Eb", "Ab", "Db", "Gb", "Cb"]

/-- The sharp keys in circle-of-fifths order (order 1 through 7). -/
def sharpKeySeq : List String := ["G", "D", "A", "E", "B", "F#", "C#"]

/-- The flat keys in circle-of-fourths order (order 1 through 7). -/
def flatKeySeq : List String := ["F", "Bb", "Eb", "Ab", "Db", "Gb", "Cb"]

/-- The i-th supported key name. -/
def keyAt (i : Fin 15) : String := supportedKeys.getD i ""

/-- The spelling the Selector chooses for pitch class `pc` under the i-th
supported key. -/
def selectedAt (i : Fin 15) (pc : Fin 12) : Spelling :=
  selectSpelling (candMap pc) (keySignatureDefaults (keyAt i))
    (preferFlatsInTie (keyAt i))

/-! ### Helper lemmas -/

/-- The JS pitch-class formula `((n % 12) + 12) % 12` with truncated `%`
computes the mathematical (Euclidean) residue. -/
theorem pitchClassOf_eq_emod (n : Int) : pitchClassOf n = n % 12 := by
  unfold pitchClassOf jsMod
  have hlt : n.tmod 12 < 12 := Int.tmod_lt_of_pos n (by norm_num)
  have hge : -12 < n.tmod 12 := by
    cases n with
    | ofNat m =>
      have h0 : 0 ≤ Int.tmod (Int.ofNat m) 12 := Int.tmod_nonneg 12 (Int.ofNat_nonneg m)
      omega
    | negSucc m =>
      have h1 : Int.tmod (Int.negSucc m) 12 = -(((m + 1) % 12 : Nat) : Int) := rfl
      have h2 : (m + 1) % 12 < 12 := Nat.mod_lt _ (by omega)
      omega
  have hnn : (0:Int) ≤ n.tmod 12 + 12 := by omega
  have he : (n.tmod 12 + 12).tmod 12 = (n.tmod 12 + 12) % 12 :=
    Int.tmod_eq_emod hnn (by norm_num)
  have hdef : n.tmod 12 = n - 12 * n.tdiv 12 := Int.tmod_def n 12
  rw [he, hdef]
  omega

/-- `Math.floor(n / 12) - 1` is Euclidean division by the positive 12,
minus one. -/
theorem octaveOf_eq_ediv (n : Int) : octaveOf n = n / 12 - 1 := by
  unfold octaveOf jsFloorDiv
  rw [Int.fdiv_eq_ediv _ (by norm_num)]

/-- The accidental glyph is empty exactly when the accidental matches the
key default. -/
theorem accidentalPrefix_empty_iff (a d : Acc) :
    accidentalPrefix a d = "" ↔ a = d := by
  cases a <;> cases d <;> decide

/-! ### Claims -/

/-- C1 (counterexample): the claim that an unrecognized key is treated as
key "C" in full, tie-break preference included, is false: "X" trims to a
string outside the 15 supported key names, yet
`formatKeyAwarePitch 61 "X" = "^C"` while
`formatKeyAwarePitch 61 "C" = "_D"`. -/
theorem claim_C1_counterexample :
    normalizeKey "X" ∉ supportedKeys ∧
    formatKeyAwarePitch 61 "X" ≠ formatKeyAwarePitch 61 "C" := by
  decide

/-- C1 (amended): for every pitch number and every key string whose trimmed
form is empty or not one of the 15 supported key names, the formatter uses
key "C"'s all-natural signature defaults, but NOT its tie-break preference:
the tie-break prefers sharps, so the output is that of the all-natural /
sharp-leaning configuration. -/
theorem claim_C1 (n : Int) (s : String) (h : normalizeKey s ∉ supportedKeys) :
    (∀ l, keySignatureDefaults (normalizeKey s) l = Acc.natural) ∧
    preferFlatsInTie (normalizeKey s) = false ∧
    formatKeyAwarePitch n s = unrecognizedKeyFormat n := by
  simp only [supportedKeys, List.mem_cons, List.mem_singleton, not_or] at h
  obtain ⟨hC, hG, hD, hA, hE, hB, hFs, hCs, hF, hBb, hEb, hAb, hDb, hGb, hCb⟩ := h
  have hsharp : keyToSharpsCount (normalizeKey s) = none := by
    simp [keyToSharpsCount, hC, hG, hD, hA, hE, hB, hFs, hCs]
  have hflat : keyToFlatsCount (normalizeKey s) = none := by
    simp [keyToFlatsCount, hC, hF, hBb, hEb, hAb, hDb, hGb, hCb]
  have hdef : keySignatureDefaults (normalizeKey s) = fun _ => Acc.natural := by
    funext l
    simp [keySignatureDefaults, hsharp, hflat]
  have hpf : preferFlatsInTie (normalizeKey s) = false := by
    simp [preferFlatsInTie, hC, List.contains_cons, beq_iff_eq,
      hF, hBb, hEb, hAb, hDb, hGb, hCb]
  refine ⟨fun l => by rw [hdef], hpf, ?_⟩
  simp only [formatKeyAwarePitch, abcFormat, unrecognizedKeyFormat, hdef, hpf]

/-- C1 (witness): the amended statement at pitch 61 and key "X". -/
theorem claim_C1_witness :
    keySignatureDefaults (normalizeKey "X") Letter.D = Acc.natural ∧
    preferFlatsInTie (normalizeKey "X") = false ∧
    formatKeyAwarePitch 61 "X" = unrecognizedKeyFormat 61 := by
  obtain ⟨h1, h2, h3⟩ := claim_C1 61 "X" (by decide)
  exact ⟨h1 Letter.D, h2, h3⟩

/-- C2: `formatKeyAwarePitch(61, "C")` is `"_D"`; pitch 61 decomposes to
pitch class 1 at octave 4, and the Selector under key C picks D-flat. -/
theorem claim_C2 :
    formatKeyAwarePitch 61 "C" = "_D" ∧
    decompose 61 = (1, 4) ∧
    selectSpelling (candMap 1) (keySignatureDefaults "C")
      (preferFlatsInTie "C") = ⟨Letter.D, Acc.flat⟩ := by
  decide

/-- C3: `formatKeyAwarePitch(61, "D")` is `"C"`; under key D (sharps on F
and C) the Selector picks C-sharp outright, and since C's default under key
D is already sharp no accidental glyph is emitted. -/
theorem claim_C3 :
    formatKeyAwarePitch 61 "D" = "C" ∧
    keySignatureDefaults "D" Letter.F = Acc.sharp ∧
    keySignatureDefaults "D" Letter.C = Acc.sharp ∧
    selectSpelling (candMap 1) (keySignatureDefaults "D")
      (preferFlatsInTie "D") = ⟨Letter.C, Acc.sharp⟩ ∧
    accidentalPrefix Acc.sharp (keySignatureDefaults "D" Letter.C) = "" := by
  decide

/-- C4: `preferFlatsInTie` returns true exactly for "C" and the seven
flat-family keys, and false for every other string. -/
theorem claim_C4 (s : String) :
    preferFlatsInTie s = decide (s ∈ flatPreferringKeys) := by
  by_cases h : s = "C"
  · subst h; decide
  · simp [preferFlatsInTie, flatPreferringKeys, h, List.contains_cons,
      beq_iff_eq]

/-- C5: `keySignatureDefaults` maps, for the sharp key of order i+1, the
first i+1 letters of the sharp order to sharp and all others to natural;
for the flat key of order i+1, the first i+1 letters of the flat order to
flat and all others to natural; and key "C" (order 0) to all naturals. -/
theorem claim_C5 :
    (∀ (i : Fin 7) (l : Letter),
        keySignatureDefaults (sharpKeySeq.getD i "") l =
          if l ∈ sharpsOrder.take (i + 1) then Acc.sharp else Acc.natural) ∧
    (∀ (i : Fin 7) (l : Letter),
        keySignatureDefaults (flatKeySeq.getD i "") l =
          if l ∈ flatsOrder.take (i + 1) then Acc.flat else Acc.natural) ∧
    (∀ l : Letter, keySignatureDefaults "C" l = Acc.natural) := by
  decide

/-- C6: `applyAbcOctave` renders an upper-case letter followed by exactly
`4 - o` commas at octave `o ≤ 4`, and a lower-case letter followed by
exactly `o - 5` apostrophes at octave `o > 4`; in particular C renders as
"C", "C,", "c", and c-apostrophe at octaves 4, 3, 5, 6. -/
theorem claim_C6 :
    (∀ (l : Letter) (o : Int),
        (o ≤ 4 → applyAbcOctave l o =
          l.upper ++ String.mk (List.replicate (4 - o).toNat ',')) ∧
        (4 < o → applyAbcOctave l o =
          l.lower ++ String.mk (List.replicate (o - 5).toNat apostrophe))) ∧
    applyAbcOctave Letter.C 4 = "C" ∧
    applyAbcOctave Letter.C 3 = "C," ∧
    applyAbcOctave Letter.C 5 = "c" ∧
    applyAbcOctave Letter.C 6 = String.mk ['c', apostrophe] := by
  refine ⟨fun l o => ⟨fun h => ?_, fun h => ?_⟩, by decide, by decide,
    by decide, by decide⟩
  · rw [applyAbcOctave, if_pos h]
  · rw [applyAbcOctave, if_neg (by omega)]

/-- C6 (witness): the octave rule applied at octaves 3 and 6. -/
theorem claim_C6_witness :
    applyAbcOctave Letter.C 3 =
      Letter.C.upper ++ String.mk (List.replicate ((4:Int) - 3).toNat ',') ∧
    applyAbcOctave Letter.C 6 =
      Letter.C.lower ++
        String.mk (List.replicate ((6:Int) - 5).toNat apostrophe) :=
  ⟨(claim_C6.1 Letter.C 3).1 (by decide), (claim_C6.1 Letter.C 6).2 (by decide)⟩

/-- C7: for every integer pitch number, the decomposed pitch class is the
non-negative residue `((n mod 12) + 12) mod 12`, lies in [0, 12), the
octave is `floor(n / 12) - 1`, and adding 12 keeps the pitch class and
raises the octave by one. -/
theorem claim_C7 (n : Int) :
    (decompose n).1 = ((n % 12) + 12) % 12 ∧
    0 ≤ (decompose n).1 ∧ (decompose n).1 < 12 ∧
    (decompose n).2 = n / 12 - 1 ∧
    (decompose (n + 12)).1 = (decompose n).1 ∧
    (decompose (n + 12)).2 = (decompose n).2 + 1 := by
  have h1 := pitchClassOf_eq_emod n
  have h2 := pitchClassOf_eq_emod (n + 12)
  have h3 := octaveOf_eq_ediv n
  have h4 := octaveOf_eq_ediv (n + 12)
  simp only [decompose] at *
  refine ⟨by omega, by omega, by omega, h3, by omega, by omega⟩

/-- C8: for every supported key and every pitch class, the accidental glyph
the renderer produces for the selected spelling is empty exactly when that
spelling's accidental equals the key's signature default for its letter. -/
theorem claim_C8 (i : Fin 15) (pc : Fin 12) :
    accidentalPrefix (selectedAt i pc).acc
        (keySignatureDefaults (keyAt i) (selectedAt i pc).letter) = "" ↔
    (selectedAt i pc).acc =
      keySignatureDefaults (keyAt i) (selectedAt i pc).letter :=
  accidentalPrefix_empty_iff _ _

/-- C9: `rawFormat` emits the decimal digits of the pitch number followed
by the separator, and `scientificFormat` emits the sharp-biased note name
of the pitch class, the octave `floor(n / 12) - 1`, and the separator; in
particular `rawFormat 64 "-" = "64-"` and
`scientificFormat 64 "," = "E4,"`. -/
theorem claim_C9 (n : Int) (sep : String) (h0 : 0 ≤ n) (h127 : n ≤ 127) :
    rawFormat n sep = n.toNat.repr ++ sep ∧
    scientificFormat n sep =
      noteNames.getD (n % 12).toNat "undefined" ++
        toString (n / 12 - 1) ++ sep ∧
    rawFormat 64 "-" = "64-" ∧
    scientificFormat 64 "," = "E4," := by
  obtain ⟨m, rfl⟩ := Int.eq_ofNat_of_zero_le h0
  refine ⟨rfl, ?_, by decide, by decide⟩
  have h1 : jsMod (m : Int) 12 = ((m % 12 : Nat) : Int) := rfl
  have h2 : (0:Int) ≤ ((m % 12 : Nat) : Int) := Int.ofNat_nonneg _
  have h3 : (m : Int) % 12 = ((m % 12 : Nat) : Int) := rfl
  have h4 : jsFloorDiv (m : Int) 12 = (m : Int) / 12 :=
    Int.fdiv_eq_ediv _ (by norm_num)
  simp only [scientificFormat, h1, h3, h4, if_pos h2]

/-- C9 (witness): the statement applied at pitch 64 and separator "-". -/
theorem claim_C9_witness :
    rawFormat 64 "-" = (Int.toNat 64).repr ++ "-" ∧
    scientificFormat 64 "-" =
      noteNames.getD ((64:Int) % 12).toNat "undefined" ++
        toString ((64:Int) / 12 - 1) ++ "-" ∧
    rawFormat 64 "-" = "64-" ∧
    scientificFormat 64 "," = "E4," :=
  claim_C9 64 "-" (by decide) (by decide)

/-- C10: the key-aware formatter's output does not depend on the separator
argument; it always equals the separator-free `formatKeyAwarePitch`. -/
theorem claim_C10 (n : Int) (k s1 s2 : String) :
    abcFormat n s1 k = abcFormat n s2 k ∧
    abcFormat n s1 k = formatKeyAwarePitch n k :=
  ⟨rfl, rfl⟩

end MidiLogger
